import Mathlib

set_option maxRecDepth 10000

/-!
Shallow embedding of the jjkit library (`src/jjrecord.hpp`, `src/jjring.cpp`,
`src/jjreg.hpp`).  Machine integers are modelled as `Nat` with explicit
`% 2^w` at the points where the C++ code converts or truncates; byte buffers
are `List Nat` whose entries are byte values; fallible storage callbacks
return `Option`/`Bool`.
-/

/-! ## CRC-16-CCITT (`jjrecord_crc16`, jjrecord.hpp lines 9-24) -/

/-- One iteration of the outer loop of `jjrecord_crc16`: xor the next data
byte into the high byte of the 16-bit crc accumulator, then run eight
MSB-first polynomial steps (polynomial 0x1021).  `crc` is a `uint16_t`, so
every shift is truncated with `% 65536`; the data byte is a `uint8_t`, hence
`% 256`. -/
def crc16_feed (crc b : Nat) : Nat :=
  let c0 := crc ^^^ ((b % 256) <<< 8)
  let step := fun (c : Nat) =>
    if c &&& 0x8000 ≠ 0 then ((c <<< 1) ^^^ 0x1021) % 65536 else (c <<< 1) % 65536
  step (step (step (step (step (step (step (step c0)))))))

/-- `jjrecord_crc16(data, size, crc = 0xFFFF)`: fold `crc16_feed` over the
data bytes, starting from 0xFFFF. -/
def jjrecord_crc16 (data : List Nat) (crc : Nat := 0xFFFF) : Nat :=
  data.foldl crc16_feed crc

/-! ## RECORD (`jjrecord.hpp`) -/

/-- The size of the record header, in bytes (`jjrecord_header_size`). -/
def jjrecord_header_size : Nat := 4

/-- `jjrecord_slot_t`: a slot position inside the storage area.  Both fields
are `uint8_t` in the source. -/
structure jjrecord_slot_t where
  index : Nat
  sequence_number : Nat
deriving DecidableEq, Repr

/-- `jjrecord_slot_t::next()`: `index` advances modulo `Redundancy`,
`sequence_number + 1` is truncated by the `static_cast<uint8_t>`, i.e.
modulo 256. -/
def jjrecord_slot_t.next (Redundancy : Nat) (s : jjrecord_slot_t) : jjrecord_slot_t :=
  { index := (s.index + 1) % Redundancy,
    sequence_number := (s.sequence_number + 1) % 256 }

/-- The mutable state of a `jjrecord<Type, Size, Redundancy>` object: the
`data` buffer of `Size` bytes and the current `slot`.  The template
parameters `Type`, `Size`, `Redundancy` are passed explicitly to each
operation. -/
structure jjrecord where
  data : List Nat
  slot : jjrecord_slot_t
deriving DecidableEq, Repr

/-- `jjrecord::payload()`: the bytes of `data` past the 4-byte header. -/
def jjrecord.payload (r : jjrecord) : List Nat :=
  r.data.drop jjrecord_header_size

/-- `jjrecord::current_slot()`. -/
def jjrecord.current_slot (r : jjrecord) : jjrecord_slot_t :=
  r.slot

/-- The slot buffer laid out by `jjrecord::write_slot()`:
`data[2] = type`, `data[3] = sequence number`, crc over bytes `[2, size)`
stored little-endian at bytes 0 and 1 (`crc & 0xFF` is `% 256`,
`(crc >> 8) & 0xFF` is `>>> 8 % 256`). -/
def jjrecord_slot_bytes (T seq : Nat) (payload : List Nat) : List Nat :=
  let body := T % 256 :: seq % 256 :: payload
  let crc := jjrecord_crc16 body
  crc % 256 :: (crc >>> 8) % 256 :: body

/-- `jjrecord::write_slot()`: prepare the header in place over the current
payload and return the full buffer. -/
def jjrecord.write_slot (T : Nat) (r : jjrecord) : List Nat :=
  jjrecord_slot_bytes T r.slot.sequence_number (r.data.drop jjrecord_header_size)

/-- `jjrecord::write_next(write_fn)`: advance the slot first, then hand the
newly laid-out buffer to the write callback and propagate its boolean
result.  The record's own `data` now holds the written buffer. -/
def jjrecord.write_next (T Redundancy : Nat) (write_fn : Nat → List Nat → Bool)
    (r : jjrecord) : Bool × jjrecord :=
  let slot := r.slot.next Redundancy
  let buf := jjrecord.write_slot T { r with slot := slot }
  (write_fn slot.index buf, { data := buf, slot := slot })

/-- `in[0] | (in[1] << 8)`: the stored crc, read little-endian.  The buffer
entries are `uint8_t`, hence the `% 256`. -/
def jjrecord_crc_read (inb : List Nat) : Nat :=
  (inb.getD 0 0) % 256 ||| (((inb.getD 1 0) % 256) <<< 8)

/-- `jjrecord_crc16(in + 2, size - 2)`: the crc recomputed over the stored
body. -/
def jjrecord_crc_calc (Size : Nat) (inb : List Nat) : Nat :=
  jjrecord_crc16 ((inb.drop 2).take (Size - 2))

/-- The sequence-number distance computed by `jjrecord::read_slot`:
`int distance = seqnum_read - sequence_number; while(distance < 0)
distance += 0xFF; distance = distance % 0xFF;`.  Both operands are
`uint8_t` values (hence the `% 256`), so the initial difference is greater
than -256 and the `while` loop body runs at most once; it is therefore
written as a single conditional `+ 255`. -/
def jjrecord_seq_distance (seqnum_read cur : Nat) : Int :=
  let d : Int := ((seqnum_read % 256 : Nat) : Int) - ((cur % 256 : Nat) : Int)
  (if d < 0 then d + 255 else d) % 255

/-- `jjrecord::read_slot(slot_index, in)`: validate crc, type tag and (for
`slot_index > 0`) the sequence window; on success adopt the slot's index and
sequence number and copy the payload bytes `in[4 .. size)` into
`data[4 .. size)`. -/
def jjrecord.read_slot (T Size Redundancy : Nat) (slot_index : Nat) (inb : List Nat)
    (r : jjrecord) : Bool × jjrecord :=
  if jjrecord_crc_read inb ≠ jjrecord_crc_calc Size inb then (false, r)
  else if (inb.getD 2 0) % 256 ≠ T % 256 then (false, r)
  else
    let seqnum_read := (inb.getD 3 0) % 256
    if slot_index > 0 ∧
        jjrecord_seq_distance seqnum_read r.slot.sequence_number ≥ (Redundancy : Int) then
      (false, r)
    else
      (true,
        { data := r.data.take jjrecord_header_size ++
            ((inb.drop jjrecord_header_size).take (Size - jjrecord_header_size)),
          slot := { index := slot_index, sequence_number := seqnum_read } })

/-- The sweep of `jjrecord::read` over a list of slot indices: a `none` from
the read callback returns `(false, _)` at once; otherwise the slot is fed to
`read_slot` and the `found` flag accumulates its result. -/
def jjrecord.read_go (T Size Redundancy : Nat) (read_fn : Nat → Option (List Nat)) :
    List Nat → Bool → jjrecord → Bool × jjrecord
  | [], found, r => (found, r)
  | i :: is, found, r =>
    match read_fn i with
    | none => (false, r)
    | some buf =>
      let p := jjrecord.read_slot T Size Redundancy i buf r
      jjrecord.read_go T Size Redundancy read_fn is (found || p.1) p.2

/-- `jjrecord::read(read_fn)`: sweep slots `0 .. redundancy-1`. -/
def jjrecord.read (T Size Redundancy : Nat) (read_fn : Nat → Option (List Nat))
    (r : jjrecord) : Bool × jjrecord :=
  jjrecord.read_go T Size Redundancy read_fn (List.range Redundancy) false r

/-- Replacing the payload bytes through the `payload()` pointer before a
write, as the `write_next` callers in the source do. -/
def jjrecord.set_payload (r : jjrecord) (p : List Nat) : jjrecord :=
  { r with data := r.data.take jjrecord_header_size ++ p }

/-- A slot buffer that fails the state-independent part of `read_slot`'s
validation: the stored crc does not match the recomputed one, or the type
tag differs from the record's.  Such a slot holds no valid record, whatever
the reader's current state. -/
def jjrecord_slot_invalid (T Size : Nat) (b : List Nat) : Prop :=
  jjrecord_crc_read b ≠ jjrecord_crc_calc Size b ∨ (b.getD 2 0) % 256 ≠ T % 256

instance (T Size : Nat) (b : List Nat) : Decidable (jjrecord_slot_invalid T Size b) := by
  unfold jjrecord_slot_invalid
  infer_instance

/-! ## RING (`jjring_`, jjring.cpp)

The untyped `jjring_` copies `elemsize` bytes per element; the embedding
works at element granularity, with the storage as a list of `N = mask + 1`
elements.  The atomic acquire/release loads and stores order memory between
the two threads; their single-threaded value semantics, which is what the
claims are about, is a plain read or write. -/

/-- `std::memcpy` of a chunk of elements into the storage at a given slot
offset. -/
def listStore {α : Type} : List α → Nat → List α → List α
  | buf, _, [] => buf
  | buf, off, x :: xs => listStore (buf.set off x) (off + 1) xs

/-- The state of a `jjring_`: storage of `mask + 1` slots and the two
cursors. -/
structure jjring (α : Type) where
  buf : List α
  mask : Nat
  head : Nat
  tail : Nat
deriving DecidableEq, Repr

/-- `jjring_::push(const void*)`: single-element enqueue; fails when one
more element would make `head` meet `tail`. -/
def jjring.push {α : Type} (x : α) (r : jjring α) : Bool × jjring α :=
  let h := r.head
  let t := r.tail
  let next := (h + 1) &&& r.mask
  if next = t then (false, r)
  else (true, { r with buf := r.buf.set h x, head := next })

/-- `jjring_::push(const void*, size_t)`: bulk enqueue, clamped to the free
space (keeping one empty slot), written as a first contiguous chunk of
`min(size, N - head)` elements at `head` and, if needed, a second chunk at
offset 0.  Returns the count actually enqueued. -/
def jjring.push_bulk {α : Type} (src : List α) (size : Nat) (r : jjring α) :
    Nat × jjring α :=
  let h := r.head
  let t := r.tail
  let N := r.mask + 1
  let space := (t + N - 1 - h) &&& r.mask
  if space = 0 then (0, r)
  else
    let size := if size > space then space else size
    let c1 := if N - h > size then size else N - h
    let buf1 := listStore r.buf h (src.take c1)
    let buf2 := if size > c1 then listStore buf1 0 ((src.drop c1).take (size - c1)) else buf1
    (size, { r with buf := buf2, head := (h + size) &&& r.mask })

/-- `jjring_::push_overwrite`: when full, advance `tail` by one first
(evicting the oldest element), then write at `head` and advance it. -/
def jjring.push_overwrite {α : Type} (x : α) (r : jjring α) : jjring α :=
  let h := r.head
  let t := r.tail
  let next := (h + 1) &&& r.mask
  let t' := if next = t then (t + 1) &&& r.mask else t
  { r with buf := r.buf.set h x, head := next, tail := t' }

/-- `jjring_::pop(void*)`: single-element dequeue; `none` models the `false`
return on an empty buffer, `some x` the element copied to `dst`. -/
def jjring.pop {α : Type} [Inhabited α] (r : jjring α) : Option α × jjring α :=
  let t := r.tail
  let h := r.head
  if h = t then (none, r)
  else (some (r.buf.getD t default), { r with tail := (t + 1) &&& r.mask })

/-- `jjring_::pop(void*, size_t)`: bulk dequeue, clamped to the available
count, copied out as a first contiguous chunk of `min(size, N - tail)`
elements from `tail` and, if needed, a second chunk from offset 0.  The
returned list models the bytes written to `dst`; its length is the returned
count. -/
def jjring.pop_bulk {α : Type} (size : Nat) (r : jjring α) : List α × jjring α :=
  let t := r.tail
  let h := r.head
  let N := r.mask + 1
  let avail := (h + N - t) &&& r.mask
  if avail = 0 then ([], r)
  else
    let size := if size > avail then avail else size
    let c1 := if N - t > size then size else N - t
    let chunk1 := (r.buf.drop t).take c1
    let chunk2 := if size > c1 then r.buf.take (size - c1) else []
    (chunk1 ++ chunk2, { r with tail := (t + size) &&& r.mask })

/-! ## SCHEMA (`jjreg.hpp`)

A schema view is a byte buffer (`List Nat`) plus, per field, the byte
offset its proxy points at.  `jjreg_u8` and the list proxy are embedded;
their `set`/`get`/`push_back` operate on the buffer at the proxy's
offset. -/

/-- The `jjreg_u8` meta: an 8-bit unsigned integer with clamping. -/
structure jjreg_u8 where
  min : Nat
  max : Nat
  default_value : Nat
deriving DecidableEq, Repr

/-- `jjreg_u8::clamped`. -/
def jjreg_u8.clamped (m : jjreg_u8) (v : Nat) : Nat :=
  if v < m.min then m.min
  else if v > m.max then m.max
  else v

/-- `jjreg_proxy<jjreg_u8>::set` (`meta.write(v, ptr)` stores the clamped
value at the proxy's byte). -/
def jjreg_u8.set (m : jjreg_u8) (ptr : Nat) (v : Nat) (buffer : List Nat) : List Nat :=
  buffer.set ptr (m.clamped v)

/-- `jjreg_proxy<jjreg_u8>::get` (`meta.read(ptr)` returns the raw byte,
without clamping). -/
def jjreg_u8.get (ptr : Nat) (buffer : List Nat) : Nat :=
  buffer.getD ptr 0

/-- An item meta as the list proxy sees it: its byte footprint and its
serialization of one item (`jjreg_proxy<Meta>::set` at the item's
offset). -/
structure jjreg_item_meta (φ : Type) where
  field_size : Nat
  write_bytes : φ → List Nat

/-- The `jjreg_u8` meta seen as a list item meta (one byte, clamped on
write). -/
def jjreg_u8.item_meta (m : jjreg_u8) : jjreg_item_meta Nat :=
  { field_size := 1, write_bytes := fun v => [m.clamped v] }

/-- `jjreg_proxy<jjreg_list<Meta, Capacity, uint8_t>>::size`: the stored
length is the byte at the proxy's offset. -/
def jjreg_list_size (ptr : Nat) (buffer : List Nat) : Nat :=
  buffer.getD ptr 0

/-- `jjreg_proxy<jjreg_list<Meta, Capacity, uint8_t>>::push_back`: refuse
when the stored length has reached `Capacity`; otherwise write the item
through the item meta's proxy at `ptr + 1 + size * field_size` and increment
the stored length (a `uint8_t`, hence `% 256`). -/
def jjreg_list_push_back {φ : Type} (M : jjreg_item_meta φ) (Capacity : Nat)
    (ptr : Nat) (v : φ) (buffer : List Nat) : Bool × List Nat :=
  let current_size := buffer.getD ptr 0
  if current_size ≥ Capacity then (false, buffer)
  else
    let buffer := listStore buffer (ptr + 1 + current_size * M.field_size) (M.write_bytes v)
    (true, buffer.set ptr ((current_size + 1) % 256))

/-! ## Helper lemmas -/

theorem crc16_feed_lt (c b : Nat) : crc16_feed c b < 65536 := by
  show (if _ then _ else _) < 65536
  split <;> exact Nat.mod_lt _ (by norm_num)

theorem jjrecord_crc16_lt (data : List Nat) (crc : Nat) (h : crc < 65536) :
    jjrecord_crc16 data crc < 65536 := by
  induction data generalizing crc with
  | nil => exact h
  | cons b t ih => exact ih _ (crc16_feed_lt _ _)

theorem lor_shift8 (a b : Nat) (ha : a < 256) : a ||| b <<< 8 = 256 * b + a := by
  rw [Nat.shiftLeft_eq, Nat.lor_comm, Nat.mul_comm b (2 ^ 8)]
  rw [← Nat.mul_add_lt_is_or (by simpa using ha) b]

theorem crc_read_slot_bytes (T seq : Nat) (payload : List Nat) :
    jjrecord_crc_read (jjrecord_slot_bytes T seq payload) =
      jjrecord_crc16 (T % 256 :: seq % 256 :: payload) := by
  have hlt : jjrecord_crc16 (T % 256 :: seq % 256 :: payload) < 65536 :=
    jjrecord_crc16_lt _ _ (by norm_num)
  simp only [jjrecord_crc_read, jjrecord_slot_bytes, List.getD_cons_zero, List.getD_cons_succ]
  have h2 : jjrecord_crc16 (T % 256 :: seq % 256 :: payload) >>> 8 =
      jjrecord_crc16 (T % 256 :: seq % 256 :: payload) / 256 := by
    rw [Nat.shiftRight_eq_div_pow]
  rw [h2, lor_shift8 _ _ (Nat.mod_lt _ (by norm_num))]
  omega

theorem crc_calc_slot_bytes (T seq Size : Nat) (payload : List Nat)
    (h : payload.length + 4 = Size) :
    jjrecord_crc_calc Size (jjrecord_slot_bytes T seq payload) =
      jjrecord_crc16 (T % 256 :: seq % 256 :: payload) := by
  simp only [jjrecord_crc_calc, jjrecord_slot_bytes, List.drop_succ_cons, List.drop_zero]
  rw [show Size - 2 = (T % 256 :: seq % 256 :: payload).length from by
    simp only [List.length_cons]; omega]
  rw [List.take_length]

theorem seq_distance_mod (q cur : Nat) :
    jjrecord_seq_distance (q % 256) cur = jjrecord_seq_distance q cur := by
  simp [jjrecord_seq_distance, Nat.mod_mod_of_dvd]

theorem seq_distance_mod_right (q s : Nat) :
    jjrecord_seq_distance q (s % 256) = jjrecord_seq_distance q s := by
  simp [jjrecord_seq_distance, Nat.mod_mod_of_dvd]

theorem seq_distance_add (s k : Nat) (hk : k < 255) (h : s + k ≤ 255) :
    jjrecord_seq_distance (s + k) s = (k : Int) := by
  unfold jjrecord_seq_distance
  rw [Nat.mod_eq_of_lt (by omega : s + k < 256), Nat.mod_eq_of_lt (by omega : s < 256)]
  have hd : ((s + k : Nat) : Int) - (s : Nat) = (k : Int) := by push_cast; ring
  rw [hd]
  dsimp only
  rw [if_neg (by omega)]
  omega

theorem seq_distance_zero (q : Nat) :
    jjrecord_seq_distance q 0 = ((q % 256 % 255 : Nat) : Int) := by
  unfold jjrecord_seq_distance
  dsimp only
  rw [Nat.zero_mod]
  push_cast
  rw [if_neg (by omega)]
  omega

theorem read_slot_slot_bytes (T Size Redundancy slot_index seq : Nat) (payload : List Nat)
    (r : jjrecord) (hlen : payload.length + 4 = Size) :
    jjrecord.read_slot T Size Redundancy slot_index (jjrecord_slot_bytes T seq payload) r =
      if slot_index > 0 ∧
          jjrecord_seq_distance seq r.slot.sequence_number ≥ (Redundancy : Int) then
        (false, r)
      else
        (true, { data := r.data.take 4 ++ payload,
                 slot := { index := slot_index, sequence_number := seq % 256 } }) := by
  unfold jjrecord.read_slot
  rw [crc_read_slot_bytes, crc_calc_slot_bytes T seq Size payload hlen]
  simp only [jjrecord_slot_bytes, jjrecord_header_size, List.getD_cons_zero, List.getD_cons_succ,
    List.drop_succ_cons, List.drop_zero]
  rw [show Size - 4 = payload.length from by omega, List.take_length]
  have hmm : ∀ a : Nat, a % 256 % 256 = a % 256 := fun a => Nat.mod_mod_of_dvd a dvd_rfl
  simp only [hmm, seq_distance_mod, ne_eq, not_true, ite_false, if_false]

theorem read_slot_erased8 (T Redundancy i : Nat) (r : jjrecord) :
    jjrecord.read_slot T 8 Redundancy i (List.replicate 8 255) r = (false, r) := by
  unfold jjrecord.read_slot
  rw [if_pos (by decide)]

theorem read_slot_fail_state (T Size Redundancy i : Nat) (buf : List Nat) (r : jjrecord)
    (h : (jjrecord.read_slot T Size Redundancy i buf r).1 = false) :
    (jjrecord.read_slot T Size Redundancy i buf r).2 = r := by
  simp only [jjrecord.read_slot] at h ⊢
  split_ifs at h ⊢ <;> simp_all

theorem read_go_abort (T Size Redundancy : Nat) (rf : Nat → Option (List Nat)) (i : Nat)
    (hnone : rf i = none) :
    ∀ (n k : Nat) (found : Bool) (r : jjrecord), k ≤ i → i < k + n →
      (∀ j, k ≤ j → j < i → rf j ≠ none) →
      jjrecord.read_go T Size Redundancy rf (List.range' k n) found r =
        (false, (jjrecord.read_go T Size Redundancy rf (List.range' k (i - k)) found r).2) := by
  intro n
  induction n with
  | zero => intro k found r hk hik hver; omega
  | succ n ih =>
    intro k found r hk hik hver
    rw [List.range'_succ]
    by_cases hki : k = i
    · subst hki
      rw [Nat.sub_self]
      simp [jjrecord.read_go, hnone]
    · obtain ⟨buf, hbuf⟩ : ∃ b, rf k = some b := by
        cases h : rf k with
        | none => exact absurd h (hver k le_rfl (by omega))
        | some b => exact ⟨b, rfl⟩
      rw [show i - k = (i - (k + 1)) + 1 from by omega, List.range'_succ]
      simp only [jjrecord.read_go, hbuf]
      exact ih (k + 1) _ _ (by omega) (by omega) (fun j hj1 hj2 => hver j (by omega) hj2)

theorem read_go_ff_tail (T Redundancy : Nat) (rf : Nat → Option (List Nat)) :
    ∀ (l : List Nat) (found : Bool) (r : jjrecord),
      (∀ i ∈ l, rf i = some (List.replicate 8 255)) →
      jjrecord.read_go T 8 Redundancy rf l found r = (found, r) := by
  intro l
  induction l with
  | nil => intro found r _; rfl
  | cons i is ih =>
    intro found r hff
    have hi := hff i (by simp)
    simp only [jjrecord.read_go, hi, read_slot_erased8]
    simpa using ih (found || false) r (fun j hj => hff j (by simp [hj]))

theorem read_go_nil (T Size Redundancy : Nat) (read_fn : Nat → Option (List Nat))
    (found : Bool) (r : jjrecord) :
    jjrecord.read_go T Size Redundancy read_fn [] found r = (found, r) := rfl

theorem read_go_cons_none (T Size Redundancy i : Nat) (is : List Nat)
    (read_fn : Nat → Option (List Nat)) (found : Bool) (r : jjrecord)
    (h : read_fn i = none) :
    jjrecord.read_go T Size Redundancy read_fn (i :: is) found r = (false, r) := by
  rw [jjrecord.read_go, h]

theorem read_go_cons_some (T Size Redundancy i : Nat) (is : List Nat)
    (read_fn : Nat → Option (List Nat)) (found : Bool) (r : jjrecord) (buf : List Nat)
    (h : read_fn i = some buf) :
    jjrecord.read_go T Size Redundancy read_fn (i :: is) found r =
      jjrecord.read_go T Size Redundancy read_fn is
        (found || (jjrecord.read_slot T Size Redundancy i buf r).1)
        (jjrecord.read_slot T Size Redundancy i buf r).2 := by
  rw [jjrecord.read_go, h]

theorem read_slot_invalid (T Size Redundancy i : Nat) (b : List Nat) (r : jjrecord)
    (h : jjrecord_slot_invalid T Size b) :
    jjrecord.read_slot T Size Redundancy i b r = (false, r) := by
  unfold jjrecord.read_slot
  rcases h with h | h
  · rw [if_pos h]
  · by_cases h1 : jjrecord_crc_read b ≠ jjrecord_crc_calc Size b
    · rw [if_pos h1]
    · rw [if_neg h1, if_pos h]

theorem read_go_invalid_tail (T Size Redundancy : Nat)
    (read_fn : Nat → Option (List Nat)) :
    ∀ (l : List Nat) (found : Bool) (r : jjrecord),
      (∀ i ∈ l, ∃ b, read_fn i = some b ∧ jjrecord_slot_invalid T Size b) →
      jjrecord.read_go T Size Redundancy read_fn l found r = (found, r) := by
  intro l
  induction l with
  | nil => intro found r _; rfl
  | cons i is ih =>
    intro found r hinv
    obtain ⟨b, hb, hbinv⟩ := hinv i (by simp)
    rw [read_go_cons_some T Size Redundancy i is read_fn found r b hb]
    rw [read_slot_invalid T Size Redundancy i b r hbinv]
    dsimp only
    rw [Bool.or_false]
    exact ih found r (fun j hj => hinv j (by simp [hj]))

theorem seq_distance_succ_le (a : Nat) : jjrecord_seq_distance (a + 1) a ≤ 1 := by
  unfold jjrecord_seq_distance
  dsimp only
  split_ifs <;> omega

/-! ## Claim theorems -/

/-- C7: `jjrecord_crc16` applied to the nine ASCII bytes of "123456789"
(49..57) returns 0x29B1, and applied to seven 0xFF bytes returns 0xC360;
the polynomial 0x1021, initial value 0xFFFF, MSB-first stepping and the
absence of reflection and final xor are encoded in `crc16_feed` and
`jjrecord_crc16`. -/
theorem jjrecord_crc16_check_vectors :
    jjrecord_crc16 [49, 50, 51, 52, 53, 54, 55, 56, 57] = 0x29B1 ∧
    jjrecord_crc16 (List.replicate 7 0xFF) = 0xC360 := by
  decide

/-- C1 counterexample: a writer at slot (2, 254) with redundancy 3 that
calls `write_next` advances to sequence number 255 — not 0 — and writes the
byte value 255 on the wire (header byte 3 of the written buffer), so the
sequence counter is not a counter modulo 255. -/
theorem jjrecord_write_next_writes_seq255_after_254 :
    ((jjrecord.write_next 0x77 3 (fun _ _ => true)
        { data := [0, 0, 0, 0, 0, 0, 0, 0],
          slot := { index := 2, sequence_number := 254 } }).2.current_slot.sequence_number
      = 255) ∧
    ((jjrecord.write_next 0x77 3 (fun _ _ => true)
        { data := [0, 0, 0, 0, 0, 0, 0, 0],
          slot := { index := 2, sequence_number := 254 } }).2.data.getD 3 0 = 255) ∧
    ((jjrecord.write_next 0x77 3 (fun _ _ => true)
        { data := [0, 0, 0, 0, 0, 0, 0, 0],
          slot := { index := 2, sequence_number := 254 } }).2.current_slot.sequence_number
      ≠ 0) := by
  decide

/-- C1 (amended): for every RECORD writer, each call to `write_next`
advances the sequence number as a counter modulo 256 (so after a slot
carrying sequence number 254 the next slot written carries 255, and the
byte value 255 does appear on the wire), both in the writer's slot state
and in header byte 3 of the buffer written to storage. -/
theorem jjrecord_write_next_wraps_seq_mod256 (T Redundancy : Nat)
    (write_fn : Nat → List Nat → Bool) (r : jjrecord) :
    ((jjrecord.write_next T Redundancy write_fn r).2.current_slot.sequence_number
        = (r.slot.sequence_number + 1) % 256) ∧
    ((jjrecord.write_next T Redundancy write_fn r).2.data.getD 3 0
        = (r.slot.sequence_number + 1) % 256) := by
  constructor
  · rfl
  · simp only [jjrecord.write_next, jjrecord.write_slot, jjrecord_slot_bytes,
      jjrecord_slot_t.next, List.getD_cons_zero, List.getD_cons_succ]
    exact Nat.mod_mod_of_dvd _ dvd_rfl

/-- C10: `write_next` advances the slot cursor before invoking the write
callback: the callback receives the advanced slot's index and the buffer
laid out for the advanced slot, the operation's result is exactly the
callback's result (so a `false` return leaves the cursor advanced, not
rolled back), and a retry `write_next` targets the slot after the advanced
one. -/
theorem jjrecord_write_next_advances_before_write (T Redundancy : Nat)
    (write_fn retry_fn : Nat → List Nat → Bool) (r : jjrecord) :
    (jjrecord.current_slot (jjrecord.write_next T Redundancy write_fn r).2
        = r.slot.next Redundancy) ∧
    ((jjrecord.write_next T Redundancy write_fn r).1
        = write_fn (r.slot.next Redundancy).index
            (jjrecord.write_slot T { r with slot := r.slot.next Redundancy })) ∧
    (jjrecord.current_slot
        (jjrecord.write_next T Redundancy retry_fn
          (jjrecord.write_next T Redundancy write_fn r).2).2
        = (r.slot.next Redundancy).next Redundancy) := by
  exact ⟨rfl, rfl, rfl⟩

/-- C6: `push_overwrite` on a full ring first advances `tail` by one
(evicting the oldest element) and then writes the new element at `head`;
concretely, on a ring of capacity 3 (N = 4) holding 1, 2, 3, a
`push_overwrite 4` makes the subsequent pops yield 2, 3, 4 in order. -/
theorem jjring_push_overwrite_evicts_oldest :
    (∀ (α : Type) (r : jjring α) (x : α),
      (r.head + 1) &&& r.mask = r.tail →
      jjring.push_overwrite x r =
        { buf := r.buf.set r.head x, mask := r.mask,
          head := (r.head + 1) &&& r.mask, tail := (r.tail + 1) &&& r.mask }) ∧
    ((jjring.pop (jjring.push_overwrite 4
        (jjring.push 3 (jjring.push 2 (jjring.push 1
          { buf := List.replicate 4 0, mask := 3, head := 0,
            tail := 0 : jjring Nat }).2).2).2)).1 = some 2 ∧
     (jjring.pop (jjring.pop (jjring.push_overwrite 4
        (jjring.push 3 (jjring.push 2 (jjring.push 1
          { buf := List.replicate 4 0, mask := 3, head := 0,
            tail := 0 : jjring Nat }).2).2).2)).2).1 = some 3 ∧
     (jjring.pop (jjring.pop (jjring.pop (jjring.push_overwrite 4
        (jjring.push 3 (jjring.push 2 (jjring.push 1
          { buf := List.replicate 4 0, mask := 3, head := 0,
            tail := 0 : jjring Nat }).2).2).2)).2).2).1 = some 4) := by
  constructor
  · intro α r x hfull
    unfold jjring.push_overwrite
    dsimp only
    rw [if_pos hfull]
  · exact ⟨by decide, by decide, by decide⟩

/-- C8: for the clamped `jjreg_u8` meta, `set(v)` followed by `get()`
returns a value within `[min, max]` (for any meta with `min ≤ max` and any
value), and concretely for the meta `u8(0, 100, 80)`, setting 120 then
reading gives 100, and setting 255 then reading gives 100. -/
theorem jjreg_u8_set_get_clamped :
    (∀ (m : jjreg_u8) (ptr v : Nat) (buffer : List Nat),
      m.min ≤ m.max → ptr < buffer.length →
      m.min ≤ jjreg_u8.get ptr (m.set ptr v buffer) ∧
      jjreg_u8.get ptr (m.set ptr v buffer) ≤ m.max) ∧
    jjreg_u8.get 0 (jjreg_u8.set { min := 0, max := 100, default_value := 80 } 0 120 [80]) = 100 ∧
    jjreg_u8.get 0 (jjreg_u8.set { min := 0, max := 100, default_value := 80 } 0 255 [80]) = 100 := by
  refine ⟨?_, by decide, by decide⟩
  intro m ptr v buffer hm hptr
  have hget : jjreg_u8.get ptr (m.set ptr v buffer) = m.clamped v := by
    unfold jjreg_u8.get jjreg_u8.set
    simp [List.getD_eq_getElem?_getD, List.getElem?_set_self (by simpa using hptr)]
  rw [hget]
  unfold jjreg_u8.clamped
  split_ifs <;> omega

/-- C9: `push_back` on a SCHEMA list already holding its capacity of items
returns false and leaves the buffer bytes (stored length and item bytes)
untouched; concretely for a `list<u8, 2>` with item meta `u8(0, 10, 1)`,
two `push_back` calls succeed, the third returns false, and the stored
length stays 2. -/
theorem jjreg_list_push_back_full_unchanged :
    (∀ (φ : Type) (M : jjreg_item_meta φ) (Capacity ptr : Nat) (v : φ) (buffer : List Nat),
      buffer.getD ptr 0 = Capacity →
      jjreg_list_push_back M Capacity ptr v buffer = (false, buffer)) ∧
    ((jjreg_list_push_back (jjreg_u8.item_meta { min := 0, max := 10, default_value := 1 })
        2 0 2 [0, 0, 0]).1 = true ∧
     (jjreg_list_push_back (jjreg_u8.item_meta { min := 0, max := 10, default_value := 1 })
        2 0 9
        (jjreg_list_push_back (jjreg_u8.item_meta { min := 0, max := 10, default_value := 1 })
          2 0 2 [0, 0, 0]).2).1 = true ∧
     (jjreg_list_push_back (jjreg_u8.item_meta { min := 0, max := 10, default_value := 1 })
        2 0 7
        (jjreg_list_push_back (jjreg_u8.item_meta { min := 0, max := 10, default_value := 1 })
          2 0 9
          (jjreg_list_push_back (jjreg_u8.item_meta { min := 0, max := 10, default_value := 1 })
            2 0 2 [0, 0, 0]).2).2) =
       (false,
        (jjreg_list_push_back (jjreg_u8.item_meta { min := 0, max := 10, default_value := 1 })
          2 0 9
          (jjreg_list_push_back (jjreg_u8.item_meta { min := 0, max := 10, default_value := 1 })
            2 0 2 [0, 0, 0]).2).2) ∧
     jjreg_list_size 0
        (jjreg_list_push_back (jjreg_u8.item_meta { min := 0, max := 10, default_value := 1 })
          2 0 7
          (jjreg_list_push_back (jjreg_u8.item_meta { min := 0, max := 10, default_value := 1 })
            2 0 9
            (jjreg_list_push_back (jjreg_u8.item_meta { min := 0, max := 10, default_value := 1 })
              2 0 2 [0, 0, 0]).2).2).2 = 2) := by
  refine ⟨?_, by decide, by decide, by decide, by decide⟩
  intro φ M Capacity ptr v buffer hsize
  unfold jjreg_list_push_back
  dsimp only
  rw [hsize, if_pos le_rfl]

/-- Witness for C6: the general eviction equation applied to the concrete
full ring with buffer [1,2,3,4], head 3, tail 0. -/
theorem jjring_push_overwrite_evicts_oldest_witness :
    jjring.push_overwrite 9
        { buf := [1, 2, 3, 4], mask := 3, head := 3, tail := 0 : jjring Nat } =
      { buf := [1, 2, 3, 9], mask := 3, head := 0, tail := 1 } := by
  exact jjring_push_overwrite_evicts_oldest.1 Nat
    { buf := [1, 2, 3, 4], mask := 3, head := 3, tail := 0 } 9 (by decide)

/-- Witness for C8: the clamping bounds applied to the concrete meta
`u8(10, 20, 15)` at offset 0 of the one-byte buffer [0] with value 30. -/
theorem jjreg_u8_set_get_clamped_witness :
    10 ≤ jjreg_u8.get 0
        (jjreg_u8.set { min := 10, max := 20, default_value := 15 } 0 30 [0]) ∧
    jjreg_u8.get 0
        (jjreg_u8.set { min := 10, max := 20, default_value := 15 } 0 30 [0]) ≤ 20 := by
  exact jjreg_u8_set_get_clamped.1 { min := 10, max := 20, default_value := 15 } 0 30 [0]
    (by decide) (by decide)

/-- Witness for C9: `push_back` on the concrete buffer [2, 5, 5] whose
stored length 2 equals the capacity 2 returns false and leaves the buffer
unchanged. -/
theorem jjreg_list_push_back_full_unchanged_witness :
    jjreg_list_push_back (jjreg_u8.item_meta { min := 0, max := 10, default_value := 1 })
        2 0 7 [2, 5, 5] = (false, [2, 5, 5]) := by
  exact jjreg_list_push_back_full_unchanged.1 Nat
    (jjreg_u8.item_meta { min := 0, max := 10, default_value := 1 }) 2 0 7 [2, 5, 5]
    (by decide)

/-- C2: during a RECORD read, a slot with index `i > 0` that passes the CRC
and type checks is rejected exactly when the distance
`((seq_read − current_seq) + 255 if negative) mod 255` is at least the
redundancy, and rejection returns `(false, r)`, keeping the previously
accepted slot's payload and slot state.  In particular (slot index 1 read
after accepting sequence `s` at slot 0, remaining slots erased): a slot
carrying sequence `s + redundancy` is rejected, so the read returns the
older payload, while one carrying `s + redundancy - 1` is accepted, so the
read returns the newer payload. -/
theorem jjrecord_read_slot_window_rejection :
    (∀ (T Size Redundancy slot_index : Nat) (inb : List Nat) (r : jjrecord),
      slot_index > 0 →
      jjrecord_crc_read inb = jjrecord_crc_calc Size inb →
      (inb.getD 2 0) % 256 = T % 256 →
      (jjrecord.read_slot T Size Redundancy slot_index inb r = (false, r) ↔
        jjrecord_seq_distance ((inb.getD 3 0) % 256) r.slot.sequence_number
          ≥ (Redundancy : Int))) ∧
    (∀ (T Redundancy s p0 p1 p2 p3 q0 q1 q2 q3 : Nat) (d0 : List Nat),
      2 ≤ Redundancy → Redundancy < 255 → s + Redundancy ≤ 255 →
      jjrecord.read T 8 Redundancy
        (fun i => if i = 0 then some (jjrecord_slot_bytes T s [p0, p1, p2, p3])
                  else if i = 1 then
                    some (jjrecord_slot_bytes T (s + Redundancy) [q0, q1, q2, q3])
                  else some (List.replicate 8 255))
        { data := d0, slot := { index := 0, sequence_number := 0 } } =
        (true, { data := d0.take 4 ++ [p0, p1, p2, p3],
                 slot := { index := 0, sequence_number := s } })) ∧
    (∀ (T Redundancy s p0 p1 p2 p3 q0 q1 q2 q3 : Nat) (d0 : List Nat),
      2 ≤ Redundancy → Redundancy < 255 → s + Redundancy ≤ 255 → 4 ≤ d0.length →
      jjrecord.read T 8 Redundancy
        (fun i => if i = 0 then some (jjrecord_slot_bytes T s [p0, p1, p2, p3])
                  else if i = 1 then
                    some (jjrecord_slot_bytes T (s + (Redundancy - 1)) [q0, q1, q2, q3])
                  else some (List.replicate 8 255))
        { data := d0, slot := { index := 0, sequence_number := 0 } } =
        (true, { data := d0.take 4 ++ [q0, q1, q2, q3],
                 slot := { index := 1, sequence_number := s + (Redundancy - 1) } })) := by
  refine ⟨?_, ?_, ?_⟩
  · intro T Size Redundancy slot_index inb r hidx hcrc htype
    unfold jjrecord.read_slot
    rw [hcrc, htype]
    simp only [ne_eq, not_true, ite_false, if_false, ite_self]
    by_cases hd : jjrecord_seq_distance ((inb.getD 3 0) % 256) r.slot.sequence_number
        ≥ (Redundancy : Int)
    · simp [hidx, hd]
    · simp [hidx, hd]
  · intro T Redundancy s p0 p1 p2 p3 q0 q1 q2 q3 d0 hr2 hr hs
    unfold jjrecord.read
    rw [show List.range Redundancy = 0 :: 1 :: List.range' 2 (Redundancy - 2) from by
      conv_lhs => rw [show Redundancy = (Redundancy - 2) + 1 + 1 from by omega]
      rw [List.range_eq_range', List.range'_succ, List.range'_succ]]
    rw [read_go_cons_some T 8 Redundancy 0 _ _ _ _ (jjrecord_slot_bytes T s [p0, p1, p2, p3]) rfl]
    rw [read_slot_slot_bytes T 8 Redundancy 0 s [p0, p1, p2, p3] _ (by simp)]
    rw [if_neg (fun h => Nat.lt_irrefl 0 h.1)]
    dsimp only
    rw [Bool.false_or]
    rw [read_go_cons_some T 8 Redundancy 1 _ _ _ _
      (jjrecord_slot_bytes T (s + Redundancy) [q0, q1, q2, q3]) rfl]
    rw [read_slot_slot_bytes T 8 Redundancy 1 (s + Redundancy) [q0, q1, q2, q3] _ (by simp)]
    rw [seq_distance_mod_right, seq_distance_add s Redundancy (by omega) (by omega)]
    rw [if_pos (⟨Nat.zero_lt_one, le_refl _⟩ :
      (1 > 0) ∧ (Redundancy : Int) ≥ (Redundancy : Nat))]
    dsimp only
    rw [Bool.or_false]
    rw [read_go_ff_tail T Redundancy _ _ _ _ (fun i hi => by
      obtain ⟨m, hm, heq⟩ := List.mem_range'.mp hi
      simp [show ¬(i = 0) from by omega, show ¬(i = 1) from by omega])]
    rw [Nat.mod_eq_of_lt (by omega : s < 256)]
  · intro T Redundancy s p0 p1 p2 p3 q0 q1 q2 q3 d0 hr2 hr hs hd0
    unfold jjrecord.read
    rw [show List.range Redundancy = 0 :: 1 :: List.range' 2 (Redundancy - 2) from by
      conv_lhs => rw [show Redundancy = (Redundancy - 2) + 1 + 1 from by omega]
      rw [List.range_eq_range', List.range'_succ, List.range'_succ]]
    rw [read_go_cons_some T 8 Redundancy 0 _ _ _ _ (jjrecord_slot_bytes T s [p0, p1, p2, p3]) rfl]
    rw [read_slot_slot_bytes T 8 Redundancy 0 s [p0, p1, p2, p3] _ (by simp)]
    rw [if_neg (fun h => Nat.lt_irrefl 0 h.1)]
    dsimp only
    rw [Bool.false_or]
    rw [read_go_cons_some T 8 Redundancy 1 _ _ _ _
      (jjrecord_slot_bytes T (s + (Redundancy - 1)) [q0, q1, q2, q3]) rfl]
    rw [read_slot_slot_bytes T 8 Redundancy 1 (s + (Redundancy - 1)) [q0, q1, q2, q3] _ (by simp)]
    rw [seq_distance_mod_right, seq_distance_add s (Redundancy - 1) (by omega) (by omega)]
    rw [if_neg (fun h => absurd (Nat.cast_le.mp h.2) (by omega))]
    dsimp only
    rw [Bool.or_true]
    rw [show List.take 4 (List.take 4 d0 ++ [p0, p1, p2, p3]) = List.take 4 d0 from by
      rw [List.take_append_eq_append_take]
      simp [List.length_take, Nat.min_eq_left hd0]]
    rw [read_go_ff_tail T Redundancy _ _ _ _ (fun i hi => by
      obtain ⟨m, hm, heq⟩ := List.mem_range'.mp hi
      simp [show ¬(i = 0) from by omega, show ¬(i = 1) from by omega])]
    rw [Nat.mod_eq_of_lt (by omega : s + (Redundancy - 1) < 256)]

/-- Witness for C2: the window-rejection sweep applied concretely with
redundancy 4, slot 0 carrying sequence 3 and slot 1 carrying sequence 7:
the read keeps slot 0's payload. -/
theorem jjrecord_read_slot_window_rejection_witness :
    jjrecord.read 0x42 8 4
      (fun i => if i = 0 then some (jjrecord_slot_bytes 0x42 3 [1, 2, 3, 4])
                else if i = 1 then some (jjrecord_slot_bytes 0x42 (3 + 4) [5, 6, 7, 8])
                else some (List.replicate 8 255))
      { data := [9, 9, 9, 9, 9, 9, 9, 9], slot := { index := 0, sequence_number := 0 } } =
      (true, { data := List.take 4 [9, 9, 9, 9, 9, 9, 9, 9] ++ [1, 2, 3, 4],
               slot := { index := 0, sequence_number := 3 } }) := by
  exact jjrecord_read_slot_window_rejection.2.1 0x42 4 3 1 2 3 4 5 6 7 8
    [9, 9, 9, 9, 9, 9, 9, 9] (by decide) (by decide) (by decide)

/-- C3 counterexample: a writer at slot (0, 2) with redundancy 2 writes the
payload [1,2,3,4] successfully, yet a fresh reader over that storage (the
other slot erased to 0xFF) returns false instead of delivering the payload:
the written sequence number 3 falls outside the fresh reader's acceptance
window (distance 3 ≥ redundancy 2), so the round trip fails for this
starting sequence number. -/
theorem jjrecord_write_read_roundtrip_fails_out_of_window :
    ((jjrecord.write_next 0x42 2 (fun _ _ => true)
        { data := [0, 0, 0, 0, 1, 2, 3, 4],
          slot := { index := 0, sequence_number := 2 } }).1 = true) ∧
    jjrecord.read 0x42 8 2
      (fun i => if i = 1 then
          some ((jjrecord.write_next 0x42 2 (fun _ _ => true)
            { data := [0, 0, 0, 0, 1, 2, 3, 4],
              slot := { index := 0, sequence_number := 2 } }).2.data)
        else some (List.replicate 8 255))
      { data := [0, 0, 0, 0, 0, 0, 0, 0], slot := { index := 0, sequence_number := 0 } } =
      (false, { data := [0, 0, 0, 0, 0, 0, 0, 0],
                slot := { index := 0, sequence_number := 0 } }) := by
  exact ⟨by decide, by decide⟩

/-- C3 (amended): for every record type tag, size, payload and every RECORD
writer starting at slot (0, s) whose next sequence number lies in a fresh
reader's acceptance window (((s+1) mod 256) mod 255 < redundancy), calling
`write_next` with that payload and then reading with a fresh reader, over
storage whose other slots hold no valid record (wrong crc or wrong type),
succeeds and delivers the payload — for redundancy ≥ 2 (first conjunct)
and, unconditionally, for redundancy 1 (second conjunct).  Reading after
several consecutive `write_next` calls (three writes, arbitrary payloads,
any redundancy ≥ 2, same window condition) delivers the most recently
written payload (third conjunct). -/
theorem jjrecord_write_read_roundtrip_in_window :
    (∀ (T Redundancy Size s : Nat) (dw d0 : List Nat) (st0 : Nat → Option (List Nat)),
      2 ≤ Redundancy → 4 ≤ Size → dw.length = Size →
      ((s + 1) % 256) % 255 < Redundancy → 4 ≤ d0.length →
      (∀ i, ∃ b, st0 i = some b ∧ jjrecord_slot_invalid T Size b) →
      ((jjrecord.write_next T Redundancy (fun _ _ => true)
          { data := dw, slot := { index := 0, sequence_number := s } }).1 = true) ∧
      (jjrecord.read T Size Redundancy
        (fun i => if i = 1 % Redundancy then
            some ((jjrecord.write_next T Redundancy (fun _ _ => true)
              { data := dw, slot := { index := 0, sequence_number := s } }).2.data)
          else st0 i)
        { data := d0, slot := { index := 0, sequence_number := 0 } } =
        (true, { data := d0.take 4 ++ dw.drop 4,
                 slot := { index := 1, sequence_number := (s + 1) % 256 } })) ∧
      ((jjrecord.read T Size Redundancy
        (fun i => if i = 1 % Redundancy then
            some ((jjrecord.write_next T Redundancy (fun _ _ => true)
              { data := dw, slot := { index := 0, sequence_number := s } }).2.data)
          else st0 i)
        { data := d0, slot := { index := 0, sequence_number := 0 } }).2.payload
          = dw.drop 4)) ∧
    (∀ (T Size s : Nat) (dw d0 : List Nat),
      4 ≤ Size → dw.length = Size → 4 ≤ d0.length →
      ((jjrecord.write_next T 1 (fun _ _ => true)
          { data := dw, slot := { index := 0, sequence_number := s } }).1 = true) ∧
      (jjrecord.read T Size 1
        (fun i => if i = 1 % 1 then
            some ((jjrecord.write_next T 1 (fun _ _ => true)
              { data := dw, slot := { index := 0, sequence_number := s } }).2.data)
          else none)
        { data := d0, slot := { index := 0, sequence_number := 0 } } =
        (true, { data := d0.take 4 ++ dw.drop 4,
                 slot := { index := 0, sequence_number := (s + 1) % 256 } })) ∧
      ((jjrecord.read T Size 1
        (fun i => if i = 1 % 1 then
            some ((jjrecord.write_next T 1 (fun _ _ => true)
              { data := dw, slot := { index := 0, sequence_number := s } }).2.data)
          else none)
        { data := d0, slot := { index := 0, sequence_number := 0 } }).2.payload
          = dw.drop 4)) ∧
    (∀ (T Redundancy Size s : Nat) (P2 P3 dw d0 : List Nat)
        (st0 : Nat → Option (List Nat)),
      2 ≤ Redundancy → 4 ≤ Size → dw.length = Size →
      P2.length + 4 = Size → P3.length + 4 = Size →
      ((s + 1) % 256) % 255 < Redundancy → 4 ≤ d0.length →
      (∀ i, ∃ b, st0 i = some b ∧ jjrecord_slot_invalid T Size b) →
      jjrecord.read T Size Redundancy
        (fun i =>
          if i = 3 % Redundancy then
            some ((jjrecord.write_next T Redundancy (fun _ _ => true)
              (jjrecord.set_payload
                ((jjrecord.write_next T Redundancy (fun _ _ => true)
                  (jjrecord.set_payload
                    ((jjrecord.write_next T Redundancy (fun _ _ => true)
                      { data := dw, slot := { index := 0, sequence_number := s } }).2)
                    P2)).2)
                P3)).2.data)
          else if i = 2 % Redundancy then
            some ((jjrecord.write_next T Redundancy (fun _ _ => true)
              (jjrecord.set_payload
                ((jjrecord.write_next T Redundancy (fun _ _ => true)
                  { data := dw, slot := { index := 0, sequence_number := s } }).2)
                P2)).2.data)
          else if i = 1 % Redundancy then
            some ((jjrecord.write_next T Redundancy (fun _ _ => true)
              { data := dw, slot := { index := 0, sequence_number := s } }).2.data)
          else st0 i)
        { data := d0, slot := { index := 0, sequence_number := 0 } } =
        (true, { data := d0.take 4 ++ P3,
                 slot := { index := 3 % Redundancy,
                           sequence_number := (s + 3) % 256 } })) := by
  refine ⟨?_, ?_, ?_⟩
  · intro T Redundancy Size s dw d0 st0 hR hsize hdw hwin hd0 hst0
    have h1R : 1 % Redundancy = 1 := Nat.mod_eq_of_lt (by omega)
    have hlen' : (dw.drop 4).length + 4 = Size := by
      simp [List.length_drop, hdw]
      omega
    have hmain : jjrecord.read T Size Redundancy
        (fun i => if i = 1 % Redundancy then
            some ((jjrecord.write_next T Redundancy (fun _ _ => true)
              { data := dw, slot := { index := 0, sequence_number := s } }).2.data)
          else st0 i)
        { data := d0, slot := { index := 0, sequence_number := 0 } } =
        (true, { data := d0.take 4 ++ dw.drop 4,
                 slot := { index := 1, sequence_number := (s + 1) % 256 } }) := by
      unfold jjrecord.read
      rw [show List.range Redundancy = 0 :: 1 :: List.range' 2 (Redundancy - 2) from by
        conv_lhs => rw [show Redundancy = (Redundancy - 2) + 1 + 1 from by omega]
        rw [List.range_eq_range', List.range'_succ, List.range'_succ]]
      obtain ⟨b0, hb0, hb0inv⟩ := hst0 0
      rw [read_go_cons_some T Size Redundancy 0 _ _ _ _ b0
        (by rw [h1R]; norm_num; exact hb0)]
      rw [read_slot_invalid T Size Redundancy 0 b0 _ hb0inv]
      dsimp only
      rw [Bool.or_false]
      rw [read_go_cons_some T Size Redundancy 1 _ _ _ _
        (jjrecord_slot_bytes T ((s + 1) % 256) (dw.drop 4))
        (by rw [h1R]; norm_num; rfl)]
      rw [read_slot_slot_bytes T Size Redundancy 1 ((s + 1) % 256) (dw.drop 4) _ hlen']
      rw [seq_distance_mod, seq_distance_zero]
      rw [if_neg (fun h => absurd (Nat.cast_le.mp h.2) (by omega))]
      dsimp only
      rw [Bool.false_or]
      rw [read_go_invalid_tail T Size Redundancy _ _ _ _ (fun i hi => by
        obtain ⟨m, hm, heq⟩ := List.mem_range'.mp hi
        rw [h1R, if_neg (by omega : ¬ i = 1)]
        exact hst0 i)]
      rw [Nat.mod_mod_of_dvd _ dvd_rfl]
    refine ⟨rfl, hmain, ?_⟩
    rw [hmain]
    show (({ data := d0.take 4 ++ dw.drop 4,
             slot := { index := 1, sequence_number := (s + 1) % 256 } } : jjrecord)).payload
        = dw.drop 4
    unfold jjrecord.payload jjrecord_header_size
    have hlen4 : (d0.take 4).length = 4 := by
      rw [List.length_take, Nat.min_eq_left hd0]
    exact List.drop_left' hlen4
  · intro T Size s dw d0 hsize hdw hd0
    have hlen' : (dw.drop 4).length + 4 = Size := by
      simp [List.length_drop, hdw]
      omega
    have hmain : jjrecord.read T Size 1
        (fun i => if i = 1 % 1 then
            some ((jjrecord.write_next T 1 (fun _ _ => true)
              { data := dw, slot := { index := 0, sequence_number := s } }).2.data)
          else none)
        { data := d0, slot := { index := 0, sequence_number := 0 } } =
        (true, { data := d0.take 4 ++ dw.drop 4,
                 slot := { index := 0, sequence_number := (s + 1) % 256 } }) := by
      unfold jjrecord.read
      rw [show List.range 1 = [0] from rfl]
      rw [read_go_cons_some T Size 1 0 _ _ _ _
        (jjrecord_slot_bytes T ((s + 1) % 256) (dw.drop 4)) (by norm_num; rfl)]
      rw [read_slot_slot_bytes T Size 1 0 ((s + 1) % 256) (dw.drop 4) _ hlen']
      rw [if_neg (fun h => Nat.lt_irrefl 0 h.1)]
      dsimp only
      rw [Bool.false_or]
      rw [read_go_nil]
      rw [Nat.mod_mod_of_dvd _ dvd_rfl]
    refine ⟨rfl, hmain, ?_⟩
    rw [hmain]
    show (({ data := d0.take 4 ++ dw.drop 4,
             slot := { index := 0, sequence_number := (s + 1) % 256 } } : jjrecord)).payload
        = dw.drop 4
    unfold jjrecord.payload jjrecord_header_size
    have hlen4 : (d0.take 4).length = 4 := by
      rw [List.length_take, Nat.min_eq_left hd0]
    exact List.drop_left' hlen4
  · intro T Redundancy Size s P2 P3 dw d0 st0 hR hsize hdw hP2 hP3 hwin hd0 hst0
    have hlen' : (dw.drop 4).length + 4 = Size := by
      simp [List.length_drop, hdw]
      omega
    have hb2 : (jjrecord.write_next T Redundancy (fun _ _ => true)
        (jjrecord.set_payload
          ((jjrecord.write_next T Redundancy (fun _ _ => true)
            { data := dw, slot := { index := 0, sequence_number := s } }).2)
          P2)).2.data = jjrecord_slot_bytes T ((s + 2) % 256) P2 := by
      show jjrecord_slot_bytes T (((s + 1) % 256 + 1) % 256) P2 = _
      rw [show ((s + 1) % 256 + 1) % 256 = (s + 2) % 256 from by omega]
    have hb3 : (jjrecord.write_next T Redundancy (fun _ _ => true)
        (jjrecord.set_payload
          ((jjrecord.write_next T Redundancy (fun _ _ => true)
            (jjrecord.set_payload
              ((jjrecord.write_next T Redundancy (fun _ _ => true)
                { data := dw, slot := { index := 0, sequence_number := s } }).2)
              P2)).2)
          P3)).2.data = jjrecord_slot_bytes T ((s + 3) % 256) P3 := by
      show jjrecord_slot_bytes T ((((s + 1) % 256 + 1) % 256 + 1) % 256) P3 = _
      rw [show (((s + 1) % 256 + 1) % 256 + 1) % 256 = (s + 3) % 256 from by omega]
    have htake : ∀ X : List Nat, (List.take 4 d0 ++ X).take 4 = List.take 4 d0 := by
      intro X
      rw [List.take_append_eq_append_take]
      simp [List.length_take, Nat.min_eq_left hd0]
    by_cases h2 : Redundancy = 2
    · subst h2
      unfold jjrecord.read
      rw [show List.range 2 = [0, 1] from rfl]
      rw [read_go_cons_some T Size 2 0 _ _ _ _ (jjrecord_slot_bytes T ((s + 2) % 256) P2)
        (by norm_num; exact hb2)]
      rw [read_slot_slot_bytes T Size 2 0 ((s + 2) % 256) P2 _ hP2]
      rw [if_neg (fun h => Nat.lt_irrefl 0 h.1)]
      dsimp only
      rw [Bool.false_or]
      rw [read_go_cons_some T Size 2 1 _ _ _ _ (jjrecord_slot_bytes T ((s + 3) % 256) P3)
        (by norm_num; exact hb3)]
      rw [read_slot_slot_bytes T Size 2 1 ((s + 3) % 256) P3 _ hP3]
      rw [seq_distance_mod, seq_distance_mod_right, seq_distance_mod_right]
      have hdle : jjrecord_seq_distance (s + 3) (s + 2) ≤ 1 := by
        rw [show s + 3 = s + 2 + 1 from rfl]
        exact seq_distance_succ_le (s + 2)
      rw [if_neg (fun h => absurd h.2 (by omega))]
      dsimp only
      rw [Bool.or_true]
      rw [htake P2]
      rw [read_go_nil]
      rw [Nat.mod_mod_of_dvd _ dvd_rfl]
    by_cases h3 : Redundancy = 3
    · subst h3
      unfold jjrecord.read
      rw [show List.range 3 = [0, 1, 2] from rfl]
      rw [read_go_cons_some T Size 3 0 _ _ _ _ (jjrecord_slot_bytes T ((s + 3) % 256) P3)
        (by norm_num; exact hb3)]
      rw [read_slot_slot_bytes T Size 3 0 ((s + 3) % 256) P3 _ hP3]
      rw [if_neg (fun h => Nat.lt_irrefl 0 h.1)]
      dsimp only
      rw [Bool.false_or]
      rw [read_go_cons_some T Size 3 1 _ _ _ _
        (jjrecord_slot_bytes T ((s + 1) % 256) (dw.drop 4)) (by norm_num; rfl)]
      rw [read_slot_slot_bytes T Size 3 1 ((s + 1) % 256) (dw.drop 4) _ hlen']
      rw [seq_distance_mod, seq_distance_mod_right, seq_distance_mod_right]
      have hrej1 : jjrecord_seq_distance (s + 1) (s + 3) ≥ ((3 : Nat) : Int) := by
        unfold jjrecord_seq_distance
        dsimp only
        split_ifs <;> omega
      rw [if_pos ⟨by omega, hrej1⟩]
      dsimp only
      rw [Bool.or_false]
      rw [read_go_cons_some T Size 3 2 _ _ _ _ (jjrecord_slot_bytes T ((s + 2) % 256) P2)
        (by norm_num; exact hb2)]
      rw [read_slot_slot_bytes T Size 3 2 ((s + 2) % 256) P2 _ hP2]
      rw [seq_distance_mod, seq_distance_mod_right, seq_distance_mod_right]
      have hrej2 : jjrecord_seq_distance (s + 2) (s + 3) ≥ ((3 : Nat) : Int) := by
        unfold jjrecord_seq_distance
        dsimp only
        split_ifs <;> omega
      rw [if_pos ⟨by omega, hrej2⟩]
      dsimp only
      rw [Bool.or_false]
      rw [read_go_nil]
      rw [Nat.mod_mod_of_dvd _ dvd_rfl]
    · have hR4 : 4 ≤ Redundancy := by omega
      have e1 : 1 % Redundancy = 1 := Nat.mod_eq_of_lt (by omega)
      have e2 : 2 % Redundancy = 2 := Nat.mod_eq_of_lt (by omega)
      have e3 : 3 % Redundancy = 3 := Nat.mod_eq_of_lt (by omega)
      unfold jjrecord.read
      rw [show List.range Redundancy
          = 0 :: 1 :: 2 :: 3 :: List.range' 4 (Redundancy - 4) from by
        conv_lhs => rw [show Redundancy = (Redundancy - 4) + 1 + 1 + 1 + 1 from by omega]
        rw [List.range_eq_range', List.range'_succ, List.range'_succ, List.range'_succ,
          List.range'_succ]]
      obtain ⟨b0, hb0, hb0inv⟩ := hst0 0
      rw [read_go_cons_some T Size Redundancy 0 _ _ _ _ b0
        (by rw [e1, e2, e3]; norm_num; exact hb0)]
      rw [read_slot_invalid T Size Redundancy 0 b0 _ hb0inv]
      dsimp only
      rw [Bool.or_false]
      rw [read_go_cons_some T Size Redundancy 1 _ _ _ _
        (jjrecord_slot_bytes T ((s + 1) % 256) (dw.drop 4))
        (by rw [e1, e2, e3]; norm_num; rfl)]
      rw [read_slot_slot_bytes T Size Redundancy 1 ((s + 1) % 256) (dw.drop 4) _ hlen']
      rw [seq_distance_mod, seq_distance_zero]
      rw [if_neg (fun h => absurd (Nat.cast_le.mp h.2) (by omega))]
      dsimp only
      rw [Bool.false_or]
      rw [read_go_cons_some T Size Redundancy 2 _ _ _ _
        (jjrecord_slot_bytes T ((s + 2) % 256) P2)
        (by rw [e1, e2, e3]; norm_num; exact hb2)]
      rw [read_slot_slot_bytes T Size Redundancy 2 ((s + 2) % 256) P2 _ hP2]
      rw [seq_distance_mod, seq_distance_mod_right, seq_distance_mod_right]
      have hacc2 : jjrecord_seq_distance (s + 2) (s + 1) ≤ 1 := by
        rw [show s + 2 = s + 1 + 1 from rfl]
        exact seq_distance_succ_le (s + 1)
      rw [if_neg (fun h => absurd h.2 (by omega))]
      dsimp only
      rw [Bool.or_true]
      rw [htake (dw.drop 4)]
      rw [read_go_cons_some T Size Redundancy 3 _ _ _ _
        (jjrecord_slot_bytes T ((s + 3) % 256) P3)
        (by rw [e1, e2, e3]; norm_num; exact hb3)]
      rw [read_slot_slot_bytes T Size Redundancy 3 ((s + 3) % 256) P3 _ hP3]
      rw [seq_distance_mod, seq_distance_mod_right, seq_distance_mod_right]
      have hacc3 : jjrecord_seq_distance (s + 3) (s + 2) ≤ 1 := by
        rw [show s + 3 = s + 2 + 1 from rfl]
        exact seq_distance_succ_le (s + 2)
      rw [if_neg (fun h => absurd h.2 (by omega))]
      dsimp only
      rw [Bool.or_true]
      rw [htake P2]
      rw [read_go_invalid_tail T Size Redundancy _ _ _ _ (fun i hi => by
        obtain ⟨m, hm, heq⟩ := List.mem_range'.mp hi
        rw [e1, e2, e3, if_neg (by omega : ¬ i = 3), if_neg (by omega : ¬ i = 2),
          if_neg (by omega : ¬ i = 1)]
        exact hst0 i)]
      rw [Nat.mod_mod_of_dvd _ dvd_rfl, e3]

/-- Witness for C3: the round trip applied concretely with a writer at
(0, 0), redundancy 2, size 8, payload [1,2,3,4], the other slot erased to
0xFF bytes; the fresh read delivers the payload. -/
theorem jjrecord_write_read_roundtrip_in_window_witness :
    (jjrecord.read 0x42 8 2
      (fun i => if i = 1 % 2 then
          some ((jjrecord.write_next 0x42 2 (fun _ _ => true)
            { data := [0, 0, 0, 0, 1, 2, 3, 4],
              slot := { index := 0, sequence_number := 0 } }).2.data)
        else (fun _ => some (List.replicate 8 255)) i)
      { data := [0, 0, 0, 0, 0, 0, 0, 0],
        slot := { index := 0, sequence_number := 0 } }).2.payload = [1, 2, 3, 4] := by
  exact (jjrecord_write_read_roundtrip_in_window.1 0x42 2 8 0
    [0, 0, 0, 0, 1, 2, 3, 4] [0, 0, 0, 0, 0, 0, 0, 0]
    (fun _ => some (List.replicate 8 255))
    (by decide) (by decide) (by decide) (by decide) (by decide)
    (fun i => ⟨List.replicate 8 255, rfl, by decide⟩)).2.2


/-- C4: if the read callback returns failure for some slot index (all
earlier ones having succeeded), the whole `read` returns false immediately:
the result is determined by the slots before the failing one (no later slot
is examined), even when an earlier slot had already validated and been
adopted into the record state.  By contrast, a slot whose validation fails
merely leaves the state unchanged and lets the sweep continue with the
remaining slots. -/
theorem jjrecord_read_aborts_on_io_failure (T Size Redundancy : Nat)
    (read_fn : Nat → Option (List Nat)) (r : jjrecord) :
    (∀ i, i < Redundancy → (∀ j, j < i → read_fn j ≠ none) → read_fn i = none →
      jjrecord.read T Size Redundancy read_fn r =
        (false, (jjrecord.read_go T Size Redundancy read_fn (List.range i) false r).2)) ∧
    (∀ (i : Nat) (is : List Nat) (found : Bool) (buf : List Nat) (r' : jjrecord),
      read_fn i = some buf →
      (jjrecord.read_slot T Size Redundancy i buf r').1 = false →
      jjrecord.read_go T Size Redundancy read_fn (i :: is) found r' =
        jjrecord.read_go T Size Redundancy read_fn is found r') := by
  constructor
  · intro i hi hver hnone
    unfold jjrecord.read
    rw [List.range_eq_range', List.range_eq_range']
    have h := read_go_abort T Size Redundancy read_fn i hnone Redundancy 0 false r
      (by omega) (by omega) (fun j _ hj2 => hver j hj2)
    rwa [Nat.sub_zero] at h
  · intro i is found buf r' hsome hfail
    rw [read_go_cons_some T Size Redundancy i is read_fn found r' buf hsome]
    rw [hfail, Bool.or_false, read_slot_fail_state T Size Redundancy i buf r' hfail]

/-- Witness for C4: with a callback failing at slot index 1 (slot 0
succeeding), the whole read over redundancy 3 returns false with the state
obtained from slot 0 alone. -/
theorem jjrecord_read_aborts_on_io_failure_witness :
    jjrecord.read 0x42 8 3
      (fun j => if j = 1 then none else some (List.replicate 8 255))
      { data := [0, 0, 0, 0, 0, 0, 0, 0], slot := { index := 0, sequence_number := 0 } } =
      (false,
       (jjrecord.read_go 0x42 8 3
          (fun j => if j = 1 then none else some (List.replicate 8 255))
          (List.range 1) false
          { data := [0, 0, 0, 0, 0, 0, 0, 0],
            slot := { index := 0, sequence_number := 0 } }).2) := by
  exact (jjrecord_read_aborts_on_io_failure 0x42 8 3
      (fun j => if j = 1 then none else some (List.replicate 8 255))
      { data := [0, 0, 0, 0, 0, 0, 0, 0],
        slot := { index := 0, sequence_number := 0 } }).1 1
    (by omega)
    (fun j hj => by
      have hj0 : j = 0 := by omega
      subst hj0
      decide)
    (by decide)

/-- C5: bulk push and bulk pop split a wrapping transfer into two
contiguous chunks — the first of `min(size, N - cursor)` elements at the
cursor, the second starting at buffer offset 0 — and preserve FIFO content:
on a ring of capacity 7 (N = 8), pushing [1..6], popping three times,
pushing [7,8,9] and then popping everything yields 4,5,6,7,8,9 in order. -/
theorem jjring_bulk_wrap_chunks_fifo :
    (∀ (α : Type) (r : jjring α) (src : List α) (size : Nat),
      (r.tail + (r.mask + 1) - 1 - r.head) &&& r.mask ≠ 0 →
      size ≤ (r.tail + (r.mask + 1) - 1 - r.head) &&& r.mask →
      jjring.push_bulk src size r =
        (size,
         { r with
           buf := listStore
               (listStore r.buf r.head (src.take (min size (r.mask + 1 - r.head)))) 0
               ((src.drop (min size (r.mask + 1 - r.head))).take
                 (size - min size (r.mask + 1 - r.head))),
           head := (r.head + size) &&& r.mask })) ∧
    (∀ (α : Type) (r : jjring α) (size : Nat),
      (r.head + (r.mask + 1) - r.tail) &&& r.mask ≠ 0 →
      size ≤ (r.head + (r.mask + 1) - r.tail) &&& r.mask →
      jjring.pop_bulk size r =
        ((r.buf.drop r.tail).take (min size (r.mask + 1 - r.tail)) ++
           r.buf.take (size - min size (r.mask + 1 - r.tail)),
         { r with tail := (r.tail + size) &&& r.mask })) ∧
    (jjring.pop_bulk 7
      (jjring.push_bulk [7, 8, 9] 3
        ((jjring.pop ((jjring.pop ((jjring.pop
          ((jjring.push_bulk [1, 2, 3, 4, 5, 6] 6
            { buf := List.replicate 8 0, mask := 7, head := 0,
              tail := 0 : jjring Nat }).2)).2)).2)).2)).2).1 = [4, 5, 6, 7, 8, 9] := by
  refine ⟨?_, ?_, by decide⟩
  · intro α r src size hsp hsz
    unfold jjring.push_bulk
    dsimp only
    rw [if_neg hsp, if_neg (Nat.not_lt.mpr hsz)]
    rw [show (if r.mask + 1 - r.head > size then size else r.mask + 1 - r.head)
        = min size (r.mask + 1 - r.head) from by
      rw [Nat.min_def]; split_ifs <;> omega]
    by_cases h2 : size > min size (r.mask + 1 - r.head)
    · rw [if_pos h2]
    · rw [if_neg h2, show size - min size (r.mask + 1 - r.head) = 0 from by omega,
        List.take_zero]
      rfl
  · intro α r size hav hsz
    unfold jjring.pop_bulk
    dsimp only
    rw [if_neg hav, if_neg (Nat.not_lt.mpr hsz)]
    rw [show (if r.mask + 1 - r.tail > size then size else r.mask + 1 - r.tail)
        = min size (r.mask + 1 - r.tail) from by
      rw [Nat.min_def]; split_ifs <;> omega]
    by_cases h2 : size > min size (r.mask + 1 - r.tail)
    · rw [if_pos h2]
    · rw [if_neg h2, show size - min size (r.mask + 1 - r.tail) = 0 from by omega,
        List.take_zero]

/-- Witness for C5: a wrapping bulk push of [7,8] onto the ring with N = 4,
head 3, tail 2 stores 7 at slot 3 and 8 at slot 0. -/
theorem jjring_bulk_wrap_chunks_fifo_witness :
    jjring.push_bulk [7, 8] 2
        { buf := [1, 2, 3, 4], mask := 3, head := 3, tail := 2 : jjring Nat } =
      (2, { buf := [8, 2, 3, 7], mask := 3, head := 1, tail := 2 }) := by
  exact jjring_bulk_wrap_chunks_fifo.1 Nat
    { buf := [1, 2, 3, 4], mask := 3, head := 3, tail := 2 } [7, 8] 2
    (by decide) (by decide)
